import Mathlib

/-!
Verification of the membership-ledger core of the college-event/club
application (keerthiramGR/college-event).

The repository ships a PostgreSQL schema (tables `users`, `events`, `clubs`,
`event_registrations`, `club_memberships`, with `UNIQUE(user_id, event_id)` /
`UNIQUE(user_id, club_id)` constraints and an optional `max_participants`
column on `events`) together with a browser client (`frontend/js/*.js`).
The server-side handlers behind `/registrations/...` and `/auth/make-admin`
are not part of the sources, so the Ledger operations are modelled from the
specification, grounded in the schema: relationship rows carry a surrogate id
(so duplicate rows are representable a priori and only the uniqueness check
rules them out), removal is a hard delete, counts are computed from the rows
(the schema stores no counter column), and users default to role `student`.

The client-side toggle handlers (`toggleEventRegistration` in
`frontend/js/events.js`, `toggleClubMembership` shown in `README.md`) are
embedded directly from the JavaScript control flow.
-/

namespace CollegeEvent

/-- The two relationship kinds: event registration rows live in
`event_registrations`, club membership rows in `club_memberships`. -/
inductive Kind where
  | event
  | club
deriving DecidableEq, Repr

/-- A relationship row, as stored in `event_registrations` /
`club_memberships`: a surrogate primary key `rowId` (the `id UUID` column)
plus the (user, resource) pair; `kind` records which table the row lives in. -/
structure Row where
  rowId : Nat
  user : Nat
  resource : Nat
  kind : Kind
deriving DecidableEq, Repr

/-- An event catalog entry: the `events` table row restricted to the fields
the Ledger reads (`id` and the optional `max_participants`). -/
structure Event where
  eventId : Nat
  maxParticipants : Option Nat
deriving DecidableEq, Repr

/-- User role: the `role` column is constrained to `student` or `admin` and
defaults to `student` (schema line 17). -/
inductive Role where
  | student
  | admin
deriving DecidableEq, Repr

/-- A `users` table row restricted to the fields the modelled operations
touch. -/
structure User where
  userId : Nat
  role : Role
deriving DecidableEq, Repr

/-- The persistent state: the relationship rows of both tables, the event
catalog, the user table, a fresh-id source for surrogate keys, and whether
the store is reachable (`storeUp = false` models an unreachable database). -/
structure St where
  rows : List Row
  events : List Event
  users : List User
  nextId : Nat
  storeUp : Bool
deriving DecidableEq, Repr

/-- Modelled from the spec: the error taxonomy of §7 (`DuplicateRelationship`,
`NotFound`, `CapacityExceeded`, `StorageUnavailable`). -/
inductive LedgerError where
  | DuplicateRelationship
  | NotFound
  | CapacityExceeded
  | StorageUnavailable
deriving DecidableEq, Repr

/-- Does `row` match the (user, resource, kind) triple? This is the match
condition of the `UNIQUE(user_id, event_id)` / `UNIQUE(user_id, club_id)`
constraints, with `kind` selecting the table. -/
def matchesPair (u r : Nat) (k : Kind) (row : Row) : Bool :=
  decide (row.user = u) && decide (row.resource = r) && decide (row.kind = k)

/-- Does `row` reference resource `r` of kind `k`? The filter behind the
derived counts. -/
def matchesRes (r : Nat) (k : Kind) (row : Row) : Bool :=
  decide (row.resource = r) && decide (row.kind = k)

/-- Number of rows for one (user, resource, kind) triple. The schema's
uniqueness constraint is the statement that this never exceeds 1. -/
def countPair (rows : List Row) (u r : Nat) (k : Kind) : Nat :=
  (rows.filter (matchesPair u r k)).length

/-- Derived count of a resource: the number of relationship rows referencing
it (`SELECT COUNT(*)`); the schema stores no counter column. -/
def countRows (rows : List Row) (r : Nat) (k : Kind) : Nat :=
  (rows.filter (matchesRes r k)).length

/-- The users appearing on rows that reference resource `r` of kind `k`. -/
def usersFor (rows : List Row) (r : Nat) (k : Kind) : List Nat :=
  (rows.filter (matchesRes r k)).map Row.user

/-- Existence check on the raw rows: is there a row for the triple? -/
def isActiveRows (rows : List Row) (u r : Nat) (k : Kind) : Bool :=
  rows.any (matchesPair u r k)

/-- Catalog lookup for an event's capacity data. -/
def findEvent (evs : List Event) (r : Nat) : Option Event :=
  evs.find? fun e => decide (e.eventId = r)

/-- Modelled from the spec: the capacity precondition of §4.1 — an event
`create` is admissible only while the current active count is below the
event's `max_participants`, when that column is set; clubs have no capacity. -/
def capacityOk (s : St) (r : Nat) (k : Kind) : Bool :=
  match k with
  | Kind.club => true
  | Kind.event =>
    match findEvent s.events r with
    | none => true
    | some e =>
      match e.maxParticipants with
      | none => true
      | some m => decide (countRows s.rows r Kind.event < m)

/-- The `registration_count` value exposed for an event: derived from the
registration rows. -/
def registration_count (s : St) (r : Nat) : Nat :=
  countRows s.rows r Kind.event

/-- The `member_count` value exposed for a club: derived from the membership
rows. -/
def member_count (s : St) (r : Nat) : Nat :=
  countRows s.rows r Kind.club

/-- Modelled from the spec: the Ledger `create` operation (the backend
handler behind `registerForEvent` / `joinClub` is not in the sources).
Fails with `StorageUnavailable` when the store is unreachable, with
`DuplicateRelationship` when a row for the pair already exists (the schema's
`UNIQUE` constraint), with `CapacityExceeded` when the event is full; on
success it inserts a single fresh row. -/
def create (s : St) (u r : Nat) (k : Kind) : Except LedgerError St :=
  if s.storeUp = false then Except.error LedgerError.StorageUnavailable
  else if isActiveRows s.rows u r k then Except.error LedgerError.DuplicateRelationship
  else if capacityOk s r k = false then Except.error LedgerError.CapacityExceeded
  else Except.ok { s with
    rows := ⟨s.nextId, u, r, k⟩ :: s.rows,
    nextId := s.nextId + 1 }

/-- Modelled from the spec: the Ledger `remove` operation (the backend
handler behind `unregisterFromEvent` / `leaveClub` is not in the sources).
Hard-deletes the row for the pair when present; reports `NotFound` when no
row exists. -/
def remove (s : St) (u r : Nat) (k : Kind) : Except LedgerError St :=
  if s.storeUp = false then Except.error LedgerError.StorageUnavailable
  else if isActiveRows s.rows u r k then
    Except.ok { s with rows := s.rows.filter fun row => !matchesPair u r k row }
  else Except.error LedgerError.NotFound

/-- Modelled from the spec: the Ledger `isActive` query as an operation that
can fail when the store is unreachable. -/
def isActiveQ (s : St) (u r : Nat) (k : Kind) : Except LedgerError Bool :=
  if s.storeUp = false then Except.error LedgerError.StorageUnavailable
  else Except.ok (isActiveRows s.rows u r k)

/-- Modelled from the spec: the Ledger `listForUser` query (the backend
behind `getMyEventRegistrations` / `getMyClubMemberships`). -/
def listForUserQ (s : St) (u : Nat) (k : Kind) : Except LedgerError (List Nat) :=
  if s.storeUp = false then Except.error LedgerError.StorageUnavailable
  else Except.ok
    ((s.rows.filter fun row => decide (row.user = u) && decide (row.kind = k)).map
      Row.resource)

/-- Modelled from the spec: `PUT /auth/make-admin/:userId` sets the user's
role to `admin` (`promoteUser` in `frontend/js/auth.js` is its caller). -/
def makeAdminUsers (users : List User) (v : Nat) : List User :=
  users.map fun usr => if usr.userId = v then { usr with role := Role.admin } else usr

/-- Role lookup in the user table: first row whose `userId` matches. -/
def roleOfUsers : List User → Nat → Option Role
  | [], _ => none
  | usr :: rest, u => if usr.userId = u then some usr.role else roleOfUsers rest u

/-- Role of a user in a state. -/
def roleOf (s : St) (u : Nat) : Option Role :=
  roleOfUsers s.users u

/-- Modelled from the spec: a user record is created on first successful
authentication, with the schema's default role `student`; an existing user
is left untouched. -/
def signup (s : St) (u : Nat) : St :=
  if s.users.any fun usr => decide (usr.userId = u) then s
  else { s with users := ⟨u, Role.student⟩ :: s.users }

/-- The operations that can reach a ledger state from the empty one:
the Ledger mutations, user signup/promotion, and the admin event-catalog
operations (delete cascades relationship rows, per `ON DELETE CASCADE`). -/
inductive Op where
  | create (u r : Nat) (k : Kind)
  | remove (u r : Nat) (k : Kind)
  | signup (u : Nat)
  | makeAdmin (u : Nat)
  | addEvent (e : Event)
  | deleteEvent (r : Nat)
deriving DecidableEq, Repr

/-- One step of the system: failed Ledger operations leave the state
unchanged; `deleteEvent` cascades to the registration rows. -/
def applyOp (s : St) (op : Op) : St :=
  match op with
  | Op.create u r k =>
    match create s u r k with
    | Except.ok s2 => s2
    | Except.error _ => s
  | Op.remove u r k =>
    match remove s u r k with
    | Except.ok s2 => s2
    | Except.error _ => s
  | Op.signup u => signup s u
  | Op.makeAdmin u =>
    if s.storeUp = false then s else { s with users := makeAdminUsers s.users u }
  | Op.addEvent e => { s with events := e :: s.events }
  | Op.deleteEvent r =>
    { s with
      events := s.events.filter fun e => !decide (e.eventId = r),
      rows := s.rows.filter fun row => !matchesRes r Kind.event row }

/-- The empty initial state: no rows, no catalog, store reachable. -/
def initState : St :=
  { rows := [], events := [], users := [], nextId := 0, storeUp := true }

/-- The state reached by running a sequence of operations from the empty
state. -/
def reach (ops : List Op) : St :=
  ops.foldl applyOp initState

/-- Two rows are on distinct (user, resource, kind) triples. -/
def distinctPair (a b : Row) : Prop :=
  ¬(a.user = b.user ∧ a.resource = b.resource ∧ a.kind = b.kind)

/-- The uniqueness invariant the schema's `UNIQUE` constraints enforce:
no two rows share a (user, resource, kind) triple. -/
def Inv (s : St) : Prop :=
  s.rows.Pairwise distinctPair

theorem matchesPair_eq_true {u r : Nat} {k : Kind} {row : Row} :
    matchesPair u r k row = true ↔ row.user = u ∧ row.resource = r ∧ row.kind = k := by
  simp [matchesPair, Bool.and_eq_true, decide_eq_true_eq, and_assoc]

theorem matchesRes_eq_true {r : Nat} {k : Kind} {row : Row} :
    matchesRes r k row = true ↔ row.resource = r ∧ row.kind = k := by
  simp [matchesRes, Bool.and_eq_true, decide_eq_true_eq]

theorem isActiveRows_eq_false {rows : List Row} {u r : Nat} {k : Kind} :
    isActiveRows rows u r k = false ↔ ∀ row ∈ rows, matchesPair u r k row = false := by
  simp [isActiveRows, List.any_eq_false]

theorem countPair_le_one {rows : List Row} (h : rows.Pairwise distinctPair)
    (u r : Nat) (k : Kind) : countPair rows u r k ≤ 1 := by
  induction rows with
  | nil => simp [countPair]
  | cons row rest ih =>
    rcases List.pairwise_cons.mp h with ⟨hhead, htail⟩
    by_cases hm : matchesPair u r k row = true
    · have hempty : rest.filter (matchesPair u r k) = [] := by
        rw [List.filter_eq_nil_iff]
        intro b hb hpb
        rcases matchesPair_eq_true.mp hm with ⟨h1, h2, h3⟩
        rcases matchesPair_eq_true.mp hpb with ⟨g1, g2, g3⟩
        exact hhead b hb ⟨h1.trans g1.symm, h2.trans g2.symm, h3.trans g3.symm⟩
      simp [countPair, List.filter_cons, hm, hempty]
    · have := ih htail
      simp only [Bool.not_eq_true] at hm
      simpa [countPair, List.filter_cons, hm] using this

theorem create_ok_elim {s s2 : St} {u r : Nat} {k : Kind}
    (hc : create s u r k = Except.ok s2) :
    s.storeUp = true ∧ isActiveRows s.rows u r k = false ∧ capacityOk s r k = true ∧
    s2 = { s with rows := ⟨s.nextId, u, r, k⟩ :: s.rows, nextId := s.nextId + 1 } := by
  unfold create at hc
  split_ifs at hc with h1 h2 h3 <;>
    first
      | exact Except.noConfusion hc
      | (simp only [Bool.not_eq_false, Bool.not_eq_true] at h1 h2 h3
         exact ⟨h1, h2, h3, (Except.ok.inj hc).symm⟩)

theorem remove_ok_elim {s s2 : St} {u r : Nat} {k : Kind}
    (hc : remove s u r k = Except.ok s2) :
    s.storeUp = true ∧ isActiveRows s.rows u r k = true ∧
    s2 = { s with rows := s.rows.filter fun row => !matchesPair u r k row } := by
  unfold remove at hc
  split_ifs at hc with h1 h2 <;>
    first
      | exact Except.noConfusion hc
      | (simp only [Bool.not_eq_false] at h1
         exact ⟨h1, h2, (Except.ok.inj hc).symm⟩)

theorem create_ok_intro {s : St} {u r : Nat} {k : Kind} (h1 : s.storeUp = true)
    (h2 : isActiveRows s.rows u r k = false) (h3 : capacityOk s r k = true) :
    create s u r k =
      Except.ok { s with rows := ⟨s.nextId, u, r, k⟩ :: s.rows, nextId := s.nextId + 1 } := by
  unfold create
  rw [if_neg (by simp [h1]), if_neg (by simp [h2]), if_neg (by simp [h3])]

theorem create_err_dup {s : St} {u r : Nat} {k : Kind} (h1 : s.storeUp = true)
    (h2 : isActiveRows s.rows u r k = true) :
    create s u r k = Except.error LedgerError.DuplicateRelationship := by
  unfold create
  rw [if_neg (by simp [h1]), if_pos h2]

theorem create_err_cap {s : St} {u r : Nat} {k : Kind} (h1 : s.storeUp = true)
    (h2 : isActiveRows s.rows u r k = false) (h3 : capacityOk s r k = false) :
    create s u r k = Except.error LedgerError.CapacityExceeded := by
  unfold create
  rw [if_neg (by simp [h1]), if_neg (by simp [h2]), if_pos h3]

theorem remove_ok_intro {s : St} {u r : Nat} {k : Kind} (h1 : s.storeUp = true)
    (h2 : isActiveRows s.rows u r k = true) :
    remove s u r k =
      Except.ok { s with rows := s.rows.filter fun row => !matchesPair u r k row } := by
  unfold remove
  rw [if_neg (by simp [h1]), if_pos h2]

theorem remove_err_notFound {s : St} {u r : Nat} {k : Kind} (h1 : s.storeUp = true)
    (h2 : isActiveRows s.rows u r k = false) :
    remove s u r k = Except.error LedgerError.NotFound := by
  unfold remove
  rw [if_neg (by simp [h1]), if_neg (by simp [h2])]

theorem inv_create {s s2 : St} {u r : Nat} {k : Kind} (h : Inv s)
    (hc : create s u r k = Except.ok s2) : Inv s2 := by
  rcases create_ok_elim hc with ⟨-, h2, -, rfl⟩
  refine List.pairwise_cons.mpr ⟨?_, h⟩
  intro b hb
  have hall := isActiveRows_eq_false.mp h2 b hb
  intro hcontra
  rcases hcontra with ⟨e1, e2, e3⟩
  exact absurd (matchesPair_eq_true.mpr ⟨e1.symm, e2.symm, e3.symm⟩)
    (Bool.eq_false_iff.mp hall)

theorem inv_filter {s : St} (h : Inv s) (p : Row → Bool) :
    (s.rows.filter p).Pairwise distinctPair :=
  List.Pairwise.sublist (List.filter_sublist s.rows) h

theorem inv_applyOp {s : St} (h : Inv s) (op : Op) : Inv (applyOp s op) := by
  cases op with
  | create u r k =>
    simp only [applyOp]
    cases hc : create s u r k with
    | ok s2 => exact inv_create h hc
    | error e => exact h
  | remove u r k =>
    simp only [applyOp]
    cases hc : remove s u r k with
    | ok s2 =>
      rcases remove_ok_elim hc with ⟨-, -, rfl⟩
      exact inv_filter h _
    | error e => exact h
  | signup u =>
    simp only [applyOp, signup]
    split_ifs with h1
    · exact h
    · exact h
  | makeAdmin u =>
    simp only [applyOp]
    split_ifs with h1
    · exact h
    · exact h
  | addEvent e => exact h
  | deleteEvent r => exact inv_filter h _

theorem inv_foldl (ops : List Op) : ∀ s : St, Inv s → Inv (ops.foldl applyOp s) := by
  induction ops with
  | nil => intro s h; exact h
  | cons op rest ih =>
    intro s h
    exact ih (applyOp s op) (inv_applyOp h op)

theorem inv_reach (ops : List Op) : Inv (reach ops) :=
  inv_foldl ops initState (List.Pairwise.nil)

theorem create_storeUp {s s2 : St} {u r : Nat} {k : Kind}
    (hc : create s u r k = Except.ok s2) : s2.storeUp = s.storeUp := by
  rcases create_ok_elim hc with ⟨-, -, -, rfl⟩
  rfl

theorem remove_storeUp {s s2 : St} {u r : Nat} {k : Kind}
    (hc : remove s u r k = Except.ok s2) : s2.storeUp = s.storeUp := by
  rcases remove_ok_elim hc with ⟨-, -, rfl⟩
  rfl

theorem storeUp_applyOp (s : St) (op : Op) : (applyOp s op).storeUp = s.storeUp := by
  cases op with
  | create u r k =>
    simp only [applyOp]
    cases hc : create s u r k with
    | ok s2 => exact create_storeUp hc
    | error e => rfl
  | remove u r k =>
    simp only [applyOp]
    cases hc : remove s u r k with
    | ok s2 => exact remove_storeUp hc
    | error e => rfl
  | signup u =>
    simp only [applyOp, signup]
    split_ifs <;> rfl
  | makeAdmin u =>
    simp only [applyOp]
    split_ifs <;> rfl
  | addEvent e => rfl
  | deleteEvent r => rfl

theorem storeUp_foldl (ops : List Op) :
    ∀ s : St, (ops.foldl applyOp s).storeUp = s.storeUp := by
  induction ops with
  | nil => intro s; rfl
  | cons op rest ih =>
    intro s
    rw [List.foldl_cons, ih (applyOp s op), storeUp_applyOp]

theorem storeUp_reach (ops : List Op) : (reach ops).storeUp = true :=
  storeUp_foldl ops initState

theorem countPair_eq_zero_iff {rows : List Row} {u r : Nat} {k : Kind} :
    countPair rows u r k = 0 ↔ isActiveRows rows u r k = false := by
  simp [countPair, isActiveRows, List.length_eq_zero, List.filter_eq_nil_iff,
    List.any_eq_false]

theorem countPair_pos {rows : List Row} {u r : Nat} {k : Kind}
    (h : isActiveRows rows u r k = true) : 1 ≤ countPair rows u r k := by
  rcases Nat.eq_zero_or_pos (countPair rows u r k) with h0 | h1
  · rw [countPair_eq_zero_iff.mp h0] at h
    exact Bool.noConfusion h
  · exact h1

theorem matchesRes_of_matchesPair {u r : Nat} {k : Kind} {row : Row}
    (h : matchesPair u r k row = true) : matchesRes r k row = true := by
  rcases matchesPair_eq_true.mp h with ⟨-, h2, h3⟩
  exact matchesRes_eq_true.mpr ⟨h2, h3⟩

theorem countRows_cons (row : Row) (rest : List Row) (r : Nat) (k : Kind) :
    countRows (row :: rest) r k =
      countRows rest r k + (if matchesRes r k row = true then 1 else 0) := by
  by_cases hm : matchesRes r k row = true <;>
    simp [countRows, List.filter_cons, hm]

theorem countPair_cons (row : Row) (rest : List Row) (u r : Nat) (k : Kind) :
    countPair (row :: rest) u r k =
      countPair rest u r k + (if matchesPair u r k row = true then 1 else 0) := by
  by_cases hm : matchesPair u r k row = true <;>
    simp [countPair, List.filter_cons, hm]

theorem countRows_remove_split (rows : List Row) (u r : Nat) (k : Kind) :
    countRows rows r k =
      countPair rows u r k +
        countRows (rows.filter fun row => !matchesPair u r k row) r k := by
  induction rows with
  | nil => simp [countRows, countPair]
  | cons row rest ih =>
    by_cases hm : matchesPair u r k row = true
    · have hres := matchesRes_of_matchesPair hm
      rw [countRows_cons, countPair_cons, List.filter_cons]
      simp [hm, hres]
      omega
    · have hm2 : matchesPair u r k row = false := Bool.eq_false_iff.mpr hm
      by_cases hres : matchesRes r k row = true
      · rw [countRows_cons, countPair_cons, List.filter_cons]
        simp [hm2, hres, countRows_cons]
        omega
      · have hres2 : matchesRes r k row = false := Bool.eq_false_iff.mpr hres
        rw [countRows_cons, countPair_cons, List.filter_cons]
        simp [hm2, hres2, countRows_cons]
        omega

theorem usersFor_nodup {rows : List Row} (h : rows.Pairwise distinctPair)
    (r : Nat) (k : Kind) : (usersFor rows r k).Nodup := by
  induction rows with
  | nil => simp [usersFor]
  | cons row rest ih =>
    rcases List.pairwise_cons.mp h with ⟨hhead, htail⟩
    by_cases hm : matchesRes r k row = true
    · have hstep : usersFor (row :: rest) r k = row.user :: usersFor rest r k := by
        simp [usersFor, List.filter_cons, hm]
      rw [hstep]
      refine List.nodup_cons.mpr ⟨?_, ih htail⟩
      intro hmem
      rcases List.mem_map.mp hmem with ⟨b, hbf, hbu⟩
      rcases List.mem_filter.mp hbf with ⟨hbrest, hbres⟩
      rcases matchesRes_eq_true.mp hm with ⟨h2, h3⟩
      rcases matchesRes_eq_true.mp hbres with ⟨g2, g3⟩
      exact hhead b hbrest ⟨hbu.symm, h2.trans g2.symm, h3.trans g3.symm⟩
    · have hstep : usersFor (row :: rest) r k = usersFor rest r k := by
        simp [usersFor, List.filter_cons, Bool.eq_false_iff.mpr hm]
      rw [hstep]
      exact ih htail

/-- C1: for every (user, resource, kind) pair and every operation sequence
starting from the empty ledger, at most one active relationship row exists
for that pair — the schema's `UNIQUE(user_id, event_id)` /
`UNIQUE(user_id, club_id)` constraints are never violated. -/
theorem uniqueness_invariant (ops : List Op) (u r : Nat) (k : Kind) :
    countPair (reach ops).rows u r k ≤ 1 :=
  countPair_le_one (inv_reach ops) u r k

/-- C2: in every reachable ledger state, the derived `registration_count` /
`member_count` exposed for a resource equals the number of active
relationships referencing it — the number of distinct users holding an
active relationship with that resource. The count is computed from the
relationship rows (the schema stores no counter column), so it cannot
drift from the relationship set. -/
theorem count_consistency (ops : List Op) (r : Nat) :
    registration_count (reach ops) r =
        (usersFor (reach ops).rows r Kind.event).dedup.length ∧
    member_count (reach ops) r =
        (usersFor (reach ops).rows r Kind.club).dedup.length := by
  have h := inv_reach ops
  constructor <;>
  · rw [List.dedup_eq_self.mpr (usersFor_nodup h _ _)]
    simp [registration_count, member_count, countRows, usersFor]

/-- A state in which event 1 has `max_participants = 1` and user 10 holds
the single registration: the next `create` by a different user hits the
capacity precondition even though no relationship exists for that user. -/
def fullState : St :=
  reach [Op.addEvent ⟨1, some 1⟩, Op.create 10 1 Kind.event]

/-- C3 counterexample: "if no active relationship exists, create succeeds"
fails — user 20 holds no relationship with event 1, yet `create` is
rejected (with `CapacityExceeded`, the event being at its capacity limit). -/
theorem create_succeeds_counterexample :
    isActiveRows fullState.rows 20 1 Kind.event = false ∧
    create fullState 20 1 Kind.event = Except.error LedgerError.CapacityExceeded :=
  ⟨by decide, by rfl⟩

/-- C3 (amended): provided the store is reachable and the capacity
precondition holds, a `create` on an absent pair succeeds, leaves exactly
one relationship row for the pair and raises the resource's derived count
by exactly 1; a `create` on an active pair fails with
`DuplicateRelationship` (no new state, hence no second row, is produced). -/
theorem create_semantics (s : St) (u r : Nat) (k : Kind) (h1 : s.storeUp = true) :
    (isActiveRows s.rows u r k = false → capacityOk s r k = true →
      ∃ s2, create s u r k = Except.ok s2 ∧ countPair s2.rows u r k = 1 ∧
        countRows s2.rows r k = countRows s.rows r k + 1) ∧
    (isActiveRows s.rows u r k = true →
      create s u r k = Except.error LedgerError.DuplicateRelationship) := by
  have hm : matchesPair u r k ⟨s.nextId, u, r, k⟩ = true :=
    matchesPair_eq_true.mpr ⟨rfl, rfl, rfl⟩
  have hres : matchesRes r k ⟨s.nextId, u, r, k⟩ = true :=
    matchesRes_eq_true.mpr ⟨rfl, rfl⟩
  constructor
  · intro h2 h3
    refine ⟨_, create_ok_intro h1 h2 h3, ?_, ?_⟩
    · show countPair (⟨s.nextId, u, r, k⟩ :: s.rows) u r k = 1
      rw [countPair_cons, countPair_eq_zero_iff.mpr h2, if_pos hm]
    · show countRows (⟨s.nextId, u, r, k⟩ :: s.rows) r k = countRows s.rows r k + 1
      rw [countRows_cons, if_pos hres]
  · intro h2
    exact create_err_dup h1 h2

/-- Witness for C3's amended theorem at a concrete input. -/
theorem create_semantics_witness :
    ∃ s2, create initState 1 1 Kind.club = Except.ok s2 ∧
      countPair s2.rows 1 1 Kind.club = 1 ∧
      countRows s2.rows 1 Kind.club = countRows initState.rows 1 Kind.club + 1 :=
  (create_semantics initState 1 1 Kind.club rfl).1 (by decide) (by decide)

/-- Modelled from the spec: N racing `create` calls for one pair serialize
at the storage layer's atomic uniqueness check; this runs them in that
serialization order, recording each call's result. -/
def runCreates : Nat → St → Nat → Nat → Kind → List (Except LedgerError Unit) × St
  | 0, s, _, _, _ => ([], s)
  | Nat.succ n, s, u, r, k =>
    match create s u r k with
    | Except.ok s2 =>
      let rest := runCreates n s2 u r k
      (Except.ok () :: rest.1, rest.2)
    | Except.error e =>
      let rest := runCreates n s u r k
      (Except.error e :: rest.1, rest.2)

theorem runCreates_dup (n : Nat) :
    ∀ s : St, s.storeUp = true → ∀ u r : Nat, ∀ k : Kind,
      isActiveRows s.rows u r k = true →
      runCreates n s u r k =
        (List.replicate n (Except.error LedgerError.DuplicateRelationship), s) := by
  induction n with
  | zero => intro s h1 u r k h2; rfl
  | succ n ih =>
    intro s h1 u r k h2
    have hc := create_err_dup h1 h2
    simp [runCreates, hc, ih s h1 u r k h2, List.replicate_succ]

/-- C4: N+1 `create` calls racing on the same (user, resource, kind) pair,
serialized by the storage layer's atomic uniqueness check, produce exactly
one success and N `DuplicateRelationship` rejections; exactly one active
relationship results and the resource's count rises by exactly 1. -/
theorem concurrent_creates (n : Nat) (s : St) (u r : Nat) (k : Kind)
    (h1 : s.storeUp = true) (h2 : isActiveRows s.rows u r k = false)
    (h3 : capacityOk s r k = true) :
    (runCreates (n + 1) s u r k).1 =
        Except.ok () :: List.replicate n (Except.error LedgerError.DuplicateRelationship) ∧
    countPair (runCreates (n + 1) s u r k).2.rows u r k = 1 ∧
    countRows (runCreates (n + 1) s u r k).2.rows r k = countRows s.rows r k + 1 := by
  have hc := create_ok_intro h1 h2 h3
  have hm : matchesPair u r k ⟨s.nextId, u, r, k⟩ = true :=
    matchesPair_eq_true.mpr ⟨rfl, rfl, rfl⟩
  have hact : isActiveRows (⟨s.nextId, u, r, k⟩ :: s.rows) u r k = true := by
    unfold isActiveRows
    rw [List.any_cons, hm, Bool.true_or]
  have hloop := runCreates_dup n
      { s with rows := ⟨s.nextId, u, r, k⟩ :: s.rows, nextId := s.nextId + 1 }
      h1 u r k hact
  have hkey : runCreates (n + 1) s u r k =
      (Except.ok () :: List.replicate n (Except.error LedgerError.DuplicateRelationship),
       { s with rows := ⟨s.nextId, u, r, k⟩ :: s.rows, nextId := s.nextId + 1 }) := by
    simp [runCreates, hc, hloop]
  rw [hkey]
  refine ⟨rfl, ?_, ?_⟩
  · show countPair (⟨s.nextId, u, r, k⟩ :: s.rows) u r k = 1
    rw [countPair_cons, countPair_eq_zero_iff.mpr h2, if_pos hm]
  · show countRows (⟨s.nextId, u, r, k⟩ :: s.rows) r k = countRows s.rows r k + 1
    have hres : matchesRes r k ⟨s.nextId, u, r, k⟩ = true :=
      matchesRes_eq_true.mpr ⟨rfl, rfl⟩
    rw [countRows_cons, if_pos hres]

/-- Witness for C4 at a concrete input: three racing joins of club 2. -/
theorem concurrent_creates_witness :
    (runCreates 3 initState 1 2 Kind.club).1 =
        Except.ok () :: List.replicate 2 (Except.error LedgerError.DuplicateRelationship) ∧
    countPair (runCreates 3 initState 1 2 Kind.club).2.rows 1 2 Kind.club = 1 ∧
    countRows (runCreates 3 initState 1 2 Kind.club).2.rows 2 Kind.club =
      countRows initState.rows 2 Kind.club + 1 :=
  concurrent_creates 2 initState 1 2 Kind.club rfl (by decide) (by decide)

theorem capacityOk_event_full {s : St} {r m : Nat} {e : Event}
    (hf : findEvent s.events r = some e) (hmax : e.maxParticipants = some m)
    (hle : m ≤ countRows s.rows r Kind.event) :
    capacityOk s r Kind.event = false := by
  unfold capacityOk
  rw [hf]
  dsimp only
  rw [hmax]
  simp only [decide_eq_false_iff_not, Nat.not_lt]
  exact hle

/-- An event with `max_participants = 2` that already holds the two active
registrations of users 1 and 2. -/
def capState : St :=
  reach [Op.addEvent ⟨1, some 2⟩, Op.create 1 1 Kind.event, Op.create 2 1 Kind.event]

/-- C5: whenever an event defines `max_participants` and its active
registration count has reached it, `create` fails with `CapacityExceeded`;
concretely, with `max_participants = 2` and 2 active registrations the 3rd
`create` fails, and after one registration is removed a subsequent `create`
succeeds and the count returns to 2. -/
theorem capacity_boundary :
    (∀ s : St, ∀ u r m : Nat, ∀ e : Event, s.storeUp = true →
      isActiveRows s.rows u r Kind.event = false →
      findEvent s.events r = some e → e.maxParticipants = some m →
      m ≤ countRows s.rows r Kind.event →
      create s u r Kind.event = Except.error LedgerError.CapacityExceeded) ∧
    registration_count capState 1 = 2 ∧
    create capState 3 1 Kind.event = Except.error LedgerError.CapacityExceeded ∧
    ∃ s2, remove capState 1 1 Kind.event = Except.ok s2 ∧
      ∃ s3, create s2 3 1 Kind.event = Except.ok s3 ∧
        registration_count s3 1 = 2 := by
  refine ⟨?_, by rfl, by rfl, ?_⟩
  · intro s u r m e h1 h2 hf hmax hle
    exact create_err_cap h1 h2 (capacityOk_event_full hf hmax hle)
  · exact ⟨_, by rfl, _, by rfl, by rfl⟩

/-- Witness for C5's general clause: the third user's blocked registration
on the full two-slot event. -/
theorem capacity_boundary_witness :
    create capState 3 1 Kind.event = Except.error LedgerError.CapacityExceeded :=
  capacity_boundary.1 capState 3 1 2 ⟨1, some 2⟩ (by decide) (by decide)
    (by decide) (by decide) (by decide)

theorem isActiveRows_filter_not (rows : List Row) (u r : Nat) (k : Kind) :
    isActiveRows (rows.filter fun row => !matchesPair u r k row) u r k = false := by
  refine isActiveRows_eq_false.mpr ?_
  intro row hrow
  rcases List.mem_filter.mp hrow with ⟨-, hneg⟩
  simpa using hneg

/-- C6: `remove` needs no precondition — on an active pair it deletes the
relationship and the derived count drops by exactly 1, after which the pair
is absent and a second `remove` reports `NotFound` (a non-fatal condition,
producing no state change); on an absent pair it reports `NotFound`. -/
theorem remove_semantics (ops : List Op) (u r : Nat) (k : Kind) :
    (isActiveRows (reach ops).rows u r k = true →
      ∃ s2, remove (reach ops) u r k = Except.ok s2 ∧
        isActiveRows s2.rows u r k = false ∧
        countRows s2.rows r k + 1 = countRows (reach ops).rows r k ∧
        remove s2 u r k = Except.error LedgerError.NotFound) ∧
    (isActiveRows (reach ops).rows u r k = false →
      remove (reach ops) u r k = Except.error LedgerError.NotFound) := by
  have h1 := storeUp_reach ops
  have hinv := inv_reach ops
  constructor
  · intro h2
    refine ⟨_, remove_ok_intro h1 h2, ?_, ?_, ?_⟩
    · exact isActiveRows_filter_not (reach ops).rows u r k
    · have hsplit := countRows_remove_split (reach ops).rows u r k
      have hcp1 : countPair (reach ops).rows u r k = 1 :=
        le_antisymm (countPair_le_one hinv u r k) (countPair_pos h2)
      show countRows ((reach ops).rows.filter fun row => !matchesPair u r k row) r k + 1 =
        countRows (reach ops).rows r k
      omega
    · exact remove_err_notFound h1 (isActiveRows_filter_not (reach ops).rows u r k)
  · intro h2
    exact remove_err_notFound h1 h2

/-- Witness for C6 at a concrete input: leaving club 1 twice. -/
theorem remove_semantics_witness :
    ∃ s2, remove (reach [Op.create 1 1 Kind.club]) 1 1 Kind.club = Except.ok s2 ∧
      isActiveRows s2.rows 1 1 Kind.club = false ∧
      countRows s2.rows 1 Kind.club + 1 =
        countRows (reach [Op.create 1 1 Kind.club]).rows 1 Kind.club ∧
      remove s2 1 1 Kind.club = Except.error LedgerError.NotFound :=
  (remove_semantics [Op.create 1 1 Kind.club] 1 1 Kind.club).1 (by decide)

/-- C7: a successful `create` followed immediately by `isActive` answers
true, and a successful `remove` followed immediately by `isActive` answers
false. -/
theorem round_trip (s s2 : St) (u r : Nat) (k : Kind) :
    (create s u r k = Except.ok s2 → isActiveQ s2 u r k = Except.ok true) ∧
    (remove s u r k = Except.ok s2 → isActiveQ s2 u r k = Except.ok false) := by
  constructor
  · intro hc
    rcases create_ok_elim hc with ⟨h1, -, -, rfl⟩
    have hm : matchesPair u r k ⟨s.nextId, u, r, k⟩ = true :=
      matchesPair_eq_true.mpr ⟨rfl, rfl, rfl⟩
    have hact : isActiveRows (⟨s.nextId, u, r, k⟩ :: s.rows) u r k = true := by
      unfold isActiveRows
      rw [List.any_cons, hm, Bool.true_or]
    unfold isActiveQ
    rw [if_neg (by simp [h1])]
    exact congrArg Except.ok hact
  · intro hc
    rcases remove_ok_elim hc with ⟨h1, -, rfl⟩
    unfold isActiveQ
    rw [if_neg (by simp [h1])]
    exact congrArg Except.ok (isActiveRows_filter_not s.rows u r k)

/-- Witness for C7: registering from the empty state, then checking. -/
theorem round_trip_witness :
    isActiveQ { initState with rows := [⟨0, 1, 1, Kind.club⟩], nextId := 1 }
      1 1 Kind.club = Except.ok true :=
  (round_trip initState _ 1 1 Kind.club).1 (by rfl)

/-- C8: when the underlying store is unreachable, every core Ledger
operation returns the explicit typed `StorageUnavailable` error to its
immediate caller — none is swallowed and no fabricated fallback data is
substituted (the client-side demo-data fallback lives in the presentation
layer, outside this core). -/
theorem storage_unavailable (s : St) (u r : Nat) (k : Kind) (h : s.storeUp = false) :
    create s u r k = Except.error LedgerError.StorageUnavailable ∧
    remove s u r k = Except.error LedgerError.StorageUnavailable ∧
    isActiveQ s u r k = Except.error LedgerError.StorageUnavailable ∧
    listForUserQ s u k = Except.error LedgerError.StorageUnavailable := by
  refine ⟨?_, ?_, ?_, ?_⟩ <;> simp [create, remove, isActiveQ, listForUserQ, h]

/-- A state whose persistent store is unreachable. -/
def downState : St :=
  { rows := [], events := [], users := [], nextId := 0, storeUp := false }

/-- Witness for C8 on the unreachable-store state. -/
theorem storage_unavailable_witness :
    create downState 1 1 Kind.event = Except.error LedgerError.StorageUnavailable ∧
    remove downState 1 1 Kind.event = Except.error LedgerError.StorageUnavailable ∧
    isActiveQ downState 1 1 Kind.event = Except.error LedgerError.StorageUnavailable ∧
    listForUserQ downState 1 Kind.event = Except.error LedgerError.StorageUnavailable :=
  storage_unavailable downState 1 1 Kind.event rfl

theorem roleOfUsers_makeAdminUsers (users : List User) (u v : Nat) :
    roleOfUsers (makeAdminUsers users v) u =
      (roleOfUsers users u).map fun ρ => if u = v then Role.admin else ρ := by
  induction users with
  | nil => simp [roleOfUsers, makeAdminUsers]
  | cons usr rest ih =>
    simp only [makeAdminUsers] at ih ⊢
    by_cases hu : usr.userId = u
    · by_cases hv : usr.userId = v
      · have huv : u = v := hu.symm.trans hv
        simp [roleOfUsers, hu, hv, huv]
      · have huv : ¬(u = v) := fun h => hv (hu.trans h)
        simp [roleOfUsers, hu, hv, huv]
    · by_cases hv : usr.userId = v
      · have hvu : ¬(v = u) := fun h => hu (hv.trans h)
        simp [roleOfUsers, hu, hv, hvu, ih]
      · simp [roleOfUsers, hu, hv, ih]

theorem any_userId_of_roleOf {users : List User} {u : Nat} {ρ : Role}
    (h : roleOfUsers users u = some ρ) :
    (users.any fun usr => decide (usr.userId = u)) = true := by
  induction users with
  | nil => simp [roleOfUsers] at h
  | cons usr rest ih =>
    by_cases hu : usr.userId = u
    · simp [List.any_cons, hu]
    · rw [roleOfUsers, if_neg hu] at h
      simp [List.any_cons, ih h]

theorem roleOf_signup {s : St} {u : Nat} {ρ : Role} (v : Nat)
    (h : roleOf s u = some ρ) : roleOf (signup s v) u = some ρ := by
  unfold signup
  split_ifs with hex
  · exact h
  · show roleOfUsers (⟨v, Role.student⟩ :: s.users) u = some ρ
    by_cases hv : v = u
    · exact absurd (hv ▸ any_userId_of_roleOf h) hex
    · rw [roleOfUsers, if_neg hv]
      exact h

theorem roleOf_applyOp_admin {s : St} {u : Nat} (op : Op)
    (h : roleOf s u = some Role.admin) :
    roleOf (applyOp s op) u = some Role.admin := by
  cases op with
  | create v r k =>
    simp only [applyOp]
    cases hc : create s v r k with
    | ok s2 =>
      rcases create_ok_elim hc with ⟨-, -, -, rfl⟩
      exact h
    | error e => exact h
  | remove v r k =>
    simp only [applyOp]
    cases hc : remove s v r k with
    | ok s2 =>
      rcases remove_ok_elim hc with ⟨-, -, rfl⟩
      exact h
    | error e => exact h
  | signup v => exact roleOf_signup v h
  | makeAdmin v =>
    simp only [applyOp]
    split_ifs with hd
    · exact h
    · show roleOfUsers (makeAdminUsers s.users v) u = some Role.admin
      rw [roleOfUsers_makeAdminUsers]
      unfold roleOf at h
      rw [h]
      by_cases huv : u = v <;> simp [huv]
  | addEvent e => exact h
  | deleteEvent r => exact h

theorem roleOf_applyOp_student {s : St} {u : Nat} (op : Op)
    (h : roleOf s u = some Role.student) :
    roleOf (applyOp s op) u = some Role.student ∨
    roleOf (applyOp s op) u = some Role.admin := by
  cases op with
  | create v r k =>
    left
    simp only [applyOp]
    cases hc : create s v r k with
    | ok s2 =>
      rcases create_ok_elim hc with ⟨-, -, -, rfl⟩
      exact h
    | error e => exact h
  | remove v r k =>
    left
    simp only [applyOp]
    cases hc : remove s v r k with
    | ok s2 =>
      rcases remove_ok_elim hc with ⟨-, -, rfl⟩
      exact h
    | error e => exact h
  | signup v => exact Or.inl (roleOf_signup v h)
  | makeAdmin v =>
    simp only [applyOp]
    split_ifs with hd
    · exact Or.inl h
    · show roleOfUsers (makeAdminUsers s.users v) u = some Role.student ∨
        roleOfUsers (makeAdminUsers s.users v) u = some Role.admin
      rw [roleOfUsers_makeAdminUsers]
      unfold roleOf at h
      rw [h]
      by_cases huv : u = v
      · right
        simp [huv]
      · left
        simp [huv]
  | addEvent e => exact Or.inl h
  | deleteEvent r => exact Or.inl h

/-- C9: role promotion is one-directional. An admin stays an admin across
every operation sequence the system exposes (no operation demotes), and a
single step takes a student only to student or to admin — so the only role
transition is student→admin, effected by `makeAdmin`. -/
theorem role_monotone :
    (∀ (ops : List Op) (s : St) (u : Nat), roleOf s u = some Role.admin →
      roleOf (ops.foldl applyOp s) u = some Role.admin) ∧
    (∀ (s : St) (op : Op) (u : Nat), roleOf s u = some Role.student →
      roleOf (applyOp s op) u = some Role.student ∨
      roleOf (applyOp s op) u = some Role.admin) := by
  constructor
  · intro ops
    induction ops with
    | nil => intro s u h; exact h
    | cons op rest ih =>
      intro s u h
      exact ih (applyOp s op) u (roleOf_applyOp_admin op h)
  · intro s op u h
    exact roleOf_applyOp_student op h

/-- Witness for C9: an existing admin remains admin across a promotion of
someone else and a ledger operation. -/
theorem role_monotone_witness :
    roleOf (List.foldl applyOp { initState with users := [⟨5, Role.admin⟩] }
      [Op.makeAdmin 7, Op.create 5 1 Kind.club]) 5 = some Role.admin :=
  role_monotone.1 [Op.makeAdmin 7, Op.create 5 1 Kind.club]
    { initState with users := [⟨5, Role.admin⟩] } 5 (by decide)

/-- Toast severity, as passed to `showToast` by the client. -/
inductive ToastKind where
  | success
  | info
  | error
deriving DecidableEq, Repr

/-- A toast message shown by the client. -/
structure Toast where
  message : String
  kind : ToastKind
deriving DecidableEq, Repr

/-- The client view after the event toggle: the `isRegistered` flag (from
which `updateRegisterButton` derives the button state), the toasts shown,
and whether the handler redirected to the login page. -/
structure EventToggleView where
  registered : Bool
  toasts : List Toast
  redirected : Bool
deriving DecidableEq, Repr

/-- Embedding of `toggleEventRegistration` (`frontend/js/events.js`,
lines 351-373). `loggedIn` is `isLoggedIn()`, `hasEventId` is the
`currentEventId` guard, `registered` the current `isRegistered` flag, and
`apiResult` the outcome of the one awaited API call (`unregisterFromEvent`
when registered, `registerForEvent` otherwise). The catch block only shows
`error.message`; the flag is assigned only after the await returns. -/
def toggleEventRegistration (loggedIn hasEventId registered : Bool)
    (apiResult : Except String Unit) : EventToggleView :=
  if loggedIn = false then
    { registered := registered, toasts := [], redirected := true }
  else if hasEventId = false then
    { registered := registered, toasts := [], redirected := false }
  else
    match registered, apiResult with
    | true, Except.ok _ =>
      { registered := false,
        toasts := [⟨"Unregistered from event", ToastKind.info⟩],
        redirected := false }
    | false, Except.ok _ =>
      { registered := true,
        toasts := [⟨"Successfully registered!", ToastKind.success⟩],
        redirected := false }
    | reg, Except.error msg =>
      { registered := reg, toasts := [⟨msg, ToastKind.error⟩], redirected := false }

/-- The client view after the club toggle: the `isMember` flag, the toasts
shown, and the member count written into the club detail DOM (none when the
reload did not complete). -/
structure ClubToggleView where
  member : Bool
  toasts : List Toast
  shownCount : Option Nat
  redirected : Bool
deriving DecidableEq, Repr

/-- Embedding of `toggleClubMembership` (`README.md`, club detail page).
Same shape as the event toggle, except that after a successful join/leave
the handler additionally awaits `getClub` to refresh the member-count
display (`refreshResult`); if that second await throws, the same catch
block shows the error, but the flag was already set by the succeeded
join/leave call. -/
def toggleClubMembership (loggedIn hasClubId member : Bool)
    (apiResult : Except String Unit)
    (refreshResult : Except String Nat) : ClubToggleView :=
  if loggedIn = false then
    { member := member, toasts := [], shownCount := none, redirected := true }
  else if hasClubId = false then
    { member := member, toasts := [], shownCount := none, redirected := false }
  else
    match apiResult with
    | Except.error msg =>
      { member := member, toasts := [⟨msg, ToastKind.error⟩],
        shownCount := none, redirected := false }
    | Except.ok _ =>
      let toast : Toast :=
        if member then ⟨"Left the club", ToastKind.info⟩
        else ⟨"Welcome to the club!", ToastKind.success⟩
      match refreshResult with
      | Except.ok n =>
        { member := !member, toasts := [toast], shownCount := some n,
          redirected := false }
      | Except.error msg2 =>
        { member := !member, toasts := [toast, ⟨msg2, ToastKind.error⟩],
          shownCount := none, redirected := false }

/-- C10: in both client toggles the local flag flips only when the awaited
register/unregister (join/leave) call succeeds; when the call throws, the
flag — and hence the button state derived from it — is unchanged and the
error path only surfaces the message as a toast. -/
theorem toggle_flag_only_on_success :
    (∀ (li hid reg : Bool) (msg : String),
      (toggleEventRegistration li hid reg (Except.error msg)).registered = reg) ∧
    (∀ (reg : Bool) (msg : String),
      (toggleEventRegistration true true reg (Except.error msg)).toasts =
        [⟨msg, ToastKind.error⟩]) ∧
    (∀ reg : Bool,
      (toggleEventRegistration true true reg (Except.ok ())).registered = !reg) ∧
    (∀ (li hid mem : Bool) (msg : String) (ref : Except String Nat),
      (toggleClubMembership li hid mem (Except.error msg) ref).member = mem) ∧
    (∀ (mem : Bool) (ref : Except String Nat),
      (toggleClubMembership true true mem (Except.ok ()) ref).member = !mem) := by
  refine ⟨?_, ?_, ?_, ?_, ?_⟩
  · intro li hid reg msg
    cases li <;> cases hid <;> cases reg <;> rfl
  · intro reg msg
    cases reg <;> rfl
  · intro reg
    cases reg <;> rfl
  · intro li hid mem msg ref
    cases li <;> cases hid <;> rfl
  · intro mem ref
    cases ref <;> rfl

end CollegeEvent
